import Mathlib

/-!
Verification of the grid line-clamp allocator: a shallow embedding of the
measurement aggregation (`mkRowTextData`), the core allocator
(`calculateOptimalLineDistribution` with its phase-2 while loop `distLoop`),
and the per-cell clamp derivation (`cellConfigs`), translated from the
TypeScript source.  Heights are modelled as exact rationals, line counts as
naturals.  DOM element handles are omitted from the records; they play no
role in the arithmetic.
-/

namespace GridClamp

/-- One grid cell's measured text geometry (source record `CellTextData`). -/
structure CellTextData where
  naturalLines : ℕ
  lineHeight : ℚ
  cellPadding : ℚ
  deriving DecidableEq

/-- Per-row measurement record (source record `RowTextData`). -/
structure RowTextData where
  cells : List CellTextData
  maxNaturalLines : ℕ
  minLines : ℕ
  deriving DecidableEq

/-- Default row used to totalize list indexing; all actual reads are in range. -/
def dRow : RowTextData := ⟨[], 0, 0⟩

/-- Arithmetic mean of the line heights of a row's cells, as computed inside
`getCurrentHeight` in the source (a fold matching `Array.reduce`, divided by
the cell count). -/
def rowAvgLineHeight (row : RowTextData) : ℚ :=
  (row.cells.foldl (fun s c => s + c.lineHeight) 0) / (row.cells.length : ℚ)

/-- Arithmetic mean of the fixed paddings of a row's cells. -/
def rowAvgPadding (row : RowTextData) : ℚ :=
  (row.cells.foldl (fun s c => s + c.cellPadding) 0) / (row.cells.length : ℚ)

/-- `getCurrentHeight` from the source: total grid height of an allocation,
summing `lines * avgLineHeight + avgPadding` over the rows by index. -/
def getCurrentHeight (rows : List RowTextData) (allocation : List ℕ) : ℚ :=
  allocation.enum.foldl
    (fun sum p =>
      sum + (p.2 : ℚ) * rowAvgLineHeight (rows.getD p.1 dRow)
        + rowAvgPadding (rows.getD p.1 dRow)) 0

/-- Stable insertion into a list sorted by descending priority: the new item
goes in front of the first entry whose priority is `≤` its own, so earlier
items win ties, matching the stable JS sort with comparator
`(a, b) => b.priority - a.priority`. -/
def insertByPriority (x : ℕ × ℤ) : List (ℕ × ℤ) → List (ℕ × ℤ)
  | [] => [x]
  | y :: ys => if y.2 ≤ x.2 then x :: y :: ys else y :: insertByPriority x ys

/-- Stable insertion sort by descending priority. -/
def sortByPriority : List (ℕ × ℤ) → List (ℕ × ℤ)
  | [] => []
  | x :: xs => insertByPriority x (sortByPriority xs)

/-- `rowPriorities` of the source: indices paired with their priority
`maxNaturalLines - minLines`, keeping rows whose remaining need
`max 0 (maxNaturalLines - minLines)` is positive, sorted by descending
priority with original order on ties. -/
def rowPriorities (rows : List RowTextData) : List (ℕ × ℤ) :=
  sortByPriority
    (((List.range rows.length).map (fun i =>
        (i, ((rows.getD i dRow).maxNaturalLines : ℤ)
          - ((rows.getD i dRow).minLines : ℤ)))).filter
      (fun p => decide (0 < max 0 p.2)))

/-- The hard iteration cap of phase 2 (source constant `maxIterations`). -/
def maxIterations : ℕ := 200

/-- `rowPriorities.some(...)` test of the source: does some prioritized row
still sit below its natural maximum? -/
def hasNeedy (rows : List RowTextData) (prios : List (ℕ × ℤ))
    (alloc : List ℕ) : Bool :=
  prios.any (fun p =>
    decide (alloc.getD p.1 0 < (rows.getD p.1 dRow).maxNaturalLines))

/-- State of the phase-2 while loop: the four mutable variables
`currentAllocation`, `currentHeight`, `priorityIndex`, `iterations`. -/
structure DistState where
  alloc : List ℕ
  height : ℚ
  pIdx : ℕ
  iters : ℕ
  deriving DecidableEq

/-- The phase-2 while loop of `calculateOptimalLineDistribution`
(source lines 205-245), one recursive call per executed pass through the
body.  The first branch is the skip path (`continue`), which advances the
pointer without the wrap-around check and without counting an iteration;
the two other branches are the committed and rejected tentative additions,
both followed by the wrap-around check and `iterations++`.  The committed
branch's conditional pointer advance (move on when the row reached its
natural maximum) is written as a case split whose two arms each carry the
wrap-around check on the resulting pointer value. -/
def distLoop (rows : List RowTextData) (maxTotalHeight : ℚ)
    (prios : List (ℕ × ℤ)) (alloc : List ℕ) (height : ℚ)
    (pIdx iters : ℕ) : DistState :=
  if hc : height < maxTotalHeight ∧ pIdx < prios.length ∧ iters < maxIterations then
    let rowIndex := (prios.getD pIdx (0, 0)).1
    let row := rows.getD rowIndex dRow
    if row.maxNaturalLines ≤ alloc.getD rowIndex 0 then
      distLoop rows maxTotalHeight prios alloc height (pIdx + 1) iters
    else
      let testAlloc := alloc.set rowIndex (alloc.getD rowIndex 0 + 1)
      let testHeight := getCurrentHeight rows testAlloc
      if testHeight ≤ maxTotalHeight then
        if row.maxNaturalLines ≤ testAlloc.getD rowIndex 0 then
          if prios.length ≤ pIdx + 1 then
            if hasNeedy rows prios testAlloc then
              distLoop rows maxTotalHeight prios testAlloc testHeight 0 (iters + 1)
            else ⟨testAlloc, testHeight, 0, iters⟩
          else
            distLoop rows maxTotalHeight prios testAlloc testHeight (pIdx + 1) (iters + 1)
        else
          if prios.length ≤ pIdx then
            if hasNeedy rows prios testAlloc then
              distLoop rows maxTotalHeight prios testAlloc testHeight 0 (iters + 1)
            else ⟨testAlloc, testHeight, 0, iters⟩
          else
            distLoop rows maxTotalHeight prios testAlloc testHeight pIdx (iters + 1)
      else
        if prios.length ≤ pIdx + 1 then
          if hasNeedy rows prios alloc then
            distLoop rows maxTotalHeight prios alloc height 0 (iters + 1)
          else ⟨alloc, height, 0, iters⟩
        else
          distLoop rows maxTotalHeight prios alloc height (pIdx + 1) (iters + 1)
  else ⟨alloc, height, pIdx, iters⟩
termination_by (maxIterations - iters, prios.length - pIdx)

/-- The core allocator (source lines 159-248): return the ideal allocation
when it fits the budget, otherwise run the greedy phase-2 loop from the
all-minimum allocation. -/
def calculateOptimalLineDistribution (rowTextData : List RowTextData)
    (maxTotalHeight : ℚ) : List ℕ :=
  let idealAllocation := rowTextData.map (fun row =>
    max row.maxNaturalLines row.minLines)
  let idealHeight := getCurrentHeight rowTextData idealAllocation
  if idealHeight ≤ maxTotalHeight then idealAllocation
  else
    let currentAllocation := rowTextData.map (fun row => row.minLines)
    let currentHeight := getCurrentHeight rowTextData currentAllocation
    (distLoop rowTextData maxTotalHeight (rowPriorities rowTextData)
      currentAllocation currentHeight 0 0).alloc

/-- Row aggregate computation (source lines 83-94): the natural-line maximum,
the average line height and padding, and the readability floor
`max(1, ceil((160 - avgPadding) / avgLineHeight))`. -/
def mkRowTextData (cellData : List CellTextData) : RowTextData :=
  let maxNaturalLines := (cellData.map (fun c => c.naturalLines)).foldl max 0
  let avgLineHeight :=
    (cellData.foldl (fun s c => s + c.lineHeight) 0) / (cellData.length : ℚ)
  let avgPadding :=
    (cellData.foldl (fun s c => s + c.cellPadding) 0) / (cellData.length : ℚ)
  let minLines := max 1 (Int.toNat ⌈((160 : ℚ) - avgPadding) / avgLineHeight⌉)
  ⟨cellData, maxNaturalLines, minLines⟩

/-- Modelled from the spec's words, for comparison with `mkRowTextData`:
`minLineCount = max(1, ceil((minRowHeight - avgFixedOverhead) / avgLineUnitHeight))`
with `minRowHeight = 160` and the averages written as arithmetic means
(sum of the cells' values divided by the cell count). -/
def specMinLineCount (cellData : List CellTextData) : ℕ :=
  max 1 (Int.toNat
    ⌈((160 : ℚ) - (cellData.map (fun c => c.cellPadding)).sum / (cellData.length : ℚ))
      / ((cellData.map (fun c => c.lineHeight)).sum / (cellData.length : ℚ))⌉)

/-- Per-cell clamp style computed from the allocation (source record
`CellConfig`, DOM handle omitted). -/
structure CellConfig where
  lineClamp : ℕ
  maxHeight : ℚ
  deriving DecidableEq

/-- Per-cell clamp configs derived from an allocation (source lines 104-126):
every cell of row `i` is clamped to `min (allocation i) naturalLines`, with
pixel height `clampLines * lineHeight`. -/
def cellConfigs (rowTextData : List RowTextData)
    (optimalRowLines : List ℕ) : List CellConfig :=
  (rowTextData.enum.map (fun rp =>
    rp.2.cells.map (fun cell =>
      let clampLines := min (optimalRowLines.getD rp.1 0) cell.naturalLines
      CellConfig.mk clampLines ((clampLines : ℚ) * cell.lineHeight)))).flatten

/-- The per-row bound predicate preserved by the loop: every entry sits
between the row's floor and `max maxNaturalLines minLines`. -/
def AllocBounds (rows : List RowTextData) (alloc : List ℕ) : Prop :=
  alloc.length = rows.length ∧
  ∀ i, i < rows.length →
    (rows.getD i dRow).minLines ≤ alloc.getD i 0 ∧
    alloc.getD i 0 ≤ max (rows.getD i dRow).maxNaturalLines (rows.getD i dRow).minLines

/-- Two-row input separating the two budgets of the monotonicity analysis:
an expensive first row (line cost 200) with large remaining need and a cheap
second row (line cost 10, padding 150) with small need.  Both rows are
consistent with `mkRowTextData` (floors `max 1 ⌈160/200⌉ = 1` and
`max 1 ⌈(160-150)/10⌉ = 1`). -/
def rowsMono : List RowTextData :=
  [⟨[⟨20, 200, 0⟩], 20, 1⟩, ⟨[⟨6, 10, 150⟩], 6, 1⟩]

/-- Two-row input for the wrap-around analysis: the first row's single line
costs 500 so it can never grow within budget 900, the second row reaches its
natural maximum after two grants.  Both rows are consistent with
`mkRowTextData` (floors `max 1 ⌈160/500⌉ = 1` and `max 1 ⌈160/80⌉ = 2`). -/
def rowsWrap : List RowTextData :=
  [⟨[⟨11, 500, 0⟩], 11, 1⟩, ⟨[⟨4, 80, 0⟩], 4, 2⟩]

/-! ## Basic bridging lemmas -/

lemma foldl_add_eq {α : Type} (f : α → ℚ) (l : List α) (a : ℚ) :
    l.foldl (fun s c => s + f c) a = a + (l.map f).sum := by
  induction l generalizing a with
  | nil => simp
  | cons x xs ih => simp [ih, add_assoc]

lemma foldl_add2_eq {α : Type} (f g : α → ℚ) (l : List α) (a : ℚ) :
    l.foldl (fun s c => s + f c + g c) a = a + (l.map (fun c => f c + g c)).sum := by
  induction l generalizing a with
  | nil => simp
  | cons x xs ih => simp only [List.foldl_cons, ih, List.map_cons, List.sum_cons]; ring

lemma getCurrentHeight_eq_sum (rows : List RowTextData) (allocation : List ℕ) :
    getCurrentHeight rows allocation
      = (allocation.enum.map (fun p =>
          (p.2 : ℚ) * rowAvgLineHeight (rows.getD p.1 dRow)
            + rowAvgPadding (rows.getD p.1 dRow))).sum := by
  unfold getCurrentHeight
  rw [foldl_add2_eq (fun p => (p.2 : ℚ) * rowAvgLineHeight (rows.getD p.1 dRow))
    (fun p => rowAvgPadding (rows.getD p.1 dRow)) allocation.enum 0, zero_add]

lemma sum_enumFrom_mono (rows : List RowTextData)
    (hpos : ∀ i, 0 ≤ rowAvgLineHeight (rows.getD i dRow))
    {a b : List ℕ} (hab : List.Forall₂ (· ≤ ·) a b) : ∀ (k : ℕ),
    ((a.enumFrom k).map (fun p =>
        (p.2 : ℚ) * rowAvgLineHeight (rows.getD p.1 dRow)
          + rowAvgPadding (rows.getD p.1 dRow))).sum
      ≤ ((b.enumFrom k).map (fun p =>
        (p.2 : ℚ) * rowAvgLineHeight (rows.getD p.1 dRow)
          + rowAvgPadding (rows.getD p.1 dRow))).sum := by
  induction hab with
  | nil => intro k; simp
  | cons hxy _ ih =>
      intro k
      simp only [List.enumFrom_cons, List.map_cons, List.sum_cons]
      have h1 := mul_le_mul_of_nonneg_right
        (show ((_ : ℕ) : ℚ) ≤ _ from Nat.cast_le.mpr hxy) (hpos k)
      exact add_le_add (add_le_add_right h1 _) (ih (k + 1))

lemma getCurrentHeight_mono (rows : List RowTextData)
    (hpos : ∀ i, 0 ≤ rowAvgLineHeight (rows.getD i dRow))
    {a b : List ℕ} (hab : List.Forall₂ (· ≤ ·) a b) :
    getCurrentHeight rows a ≤ getCurrentHeight rows b := by
  rw [getCurrentHeight_eq_sum, getCurrentHeight_eq_sum]
  have := sum_enumFrom_mono rows hpos hab 0
  simpa [List.enum] using this

lemma forall₂_min_le_ideal (rows : List RowTextData) :
    List.Forall₂ (· ≤ ·) (rows.map (fun r => r.minLines))
      (rows.map (fun r => max r.maxNaturalLines r.minLines)) := by
  induction rows with
  | nil => simp
  | cons r rs ih => exact List.Forall₂.cons (le_max_right _ _) ih

lemma getD_map_lt (f : RowTextData → ℕ) (rows : List RowTextData) (i : ℕ)
    (hi : i < rows.length) :
    (rows.map f).getD i 0 = f (rows.getD i dRow) := by
  rw [List.getD_eq_getElem _ _ (by simpa using hi), List.getElem_map,
    List.getD_eq_getElem _ _ hi]

lemma getD_set_eval (l : List ℕ) (j v i : ℕ) :
    (l.set j v).getD i 0 = if j = i ∧ j < l.length then v else l.getD i 0 := by
  induction l generalizing i j with
  | nil => simp
  | cons x xs ih =>
      cases j with
      | zero =>
          cases i with
          | zero => simp
          | succ n => simp
      | succ m =>
          cases i with
          | zero => simp
          | succ n =>
              simp only [List.set_cons_succ, List.getD_cons_succ, ih, List.length_cons]
              by_cases h : m = n ∧ m < xs.length
              · rw [if_pos h, if_pos ⟨by omega, by omega⟩]
              · rw [if_neg h, if_neg (by omega)]

/-- Unfolding of the allocator into its two phases. -/
lemma calc_eq (rows : List RowTextData) (b : ℚ) :
    calculateOptimalLineDistribution rows b
      = if getCurrentHeight rows (rows.map (fun r => max r.maxNaturalLines r.minLines)) ≤ b
        then rows.map (fun r => max r.maxNaturalLines r.minLines)
        else (distLoop rows b (rowPriorities rows) (rows.map (fun r => r.minLines))
          (getCurrentHeight rows (rows.map (fun r => r.minLines))) 0 0).alloc := rfl

/-! ## Invariants of the phase-2 loop -/

lemma distLoop_height_le (rows : List RowTextData) (b : ℚ) (prios : List (ℕ × ℤ))
    (alloc : List ℕ) (h : ℚ) (p it : ℕ)
    (hh : getCurrentHeight rows alloc ≤ b) :
    getCurrentHeight rows (distLoop rows b prios alloc h p it).alloc ≤ b := by
  induction alloc, h, p, it using distLoop.induct rows b prios with
  | case1 alloc h p it hc rowIndex row hskip ih =>
      rw [distLoop.eq_def, dif_pos hc, if_pos hskip]
      exact ih hh
  | case2 alloc h p it hc rowIndex row hskip testAlloc testHeight htest hmax hwrap hneedy ih =>
      rw [distLoop.eq_def, dif_pos hc, if_neg hskip, if_pos htest, if_pos hmax, if_pos hwrap,
        if_pos hneedy]
      exact ih htest
  | case3 alloc h p it hc rowIndex row hskip testAlloc testHeight htest hmax hwrap hneedy =>
      rw [distLoop.eq_def, dif_pos hc, if_neg hskip, if_pos htest, if_pos hmax, if_pos hwrap,
        if_neg hneedy]
      exact htest
  | case4 alloc h p it hc rowIndex row hskip testAlloc testHeight htest hmax hwrap ih =>
      rw [distLoop.eq_def, dif_pos hc, if_neg hskip, if_pos htest, if_pos hmax, if_neg hwrap]
      exact ih htest
  | case5 alloc h p it hc rowIndex row hskip testAlloc testHeight htest hmax hwrap hneedy ih =>
      rw [distLoop.eq_def, dif_pos hc, if_neg hskip, if_pos htest, if_neg hmax, if_pos hwrap,
        if_pos hneedy]
      exact ih htest
  | case6 alloc h p it hc rowIndex row hskip testAlloc testHeight htest hmax hwrap hneedy =>
      rw [distLoop.eq_def, dif_pos hc, if_neg hskip, if_pos htest, if_neg hmax, if_pos hwrap,
        if_neg hneedy]
      exact htest
  | case7 alloc h p it hc rowIndex row hskip testAlloc testHeight htest hmax hwrap ih =>
      rw [distLoop.eq_def, dif_pos hc, if_neg hskip, if_pos htest, if_neg hmax, if_neg hwrap]
      exact ih htest
  | case8 alloc h p it hc rowIndex row hskip testAlloc testHeight htest hwrap hneedy ih =>
      rw [distLoop.eq_def, dif_pos hc, if_neg hskip, if_neg htest, if_pos hwrap, if_pos hneedy]
      exact ih hh
  | case9 alloc h p it hc rowIndex row hskip testAlloc testHeight htest hwrap hneedy =>
      rw [distLoop.eq_def, dif_pos hc, if_neg hskip, if_neg htest, if_pos hwrap, if_neg hneedy]
      exact hh
  | case10 alloc h p it hc rowIndex row hskip testAlloc testHeight htest hwrap ih =>
      rw [distLoop.eq_def, dif_pos hc, if_neg hskip, if_neg htest, if_neg hwrap]
      exact ih hh
  | case11 alloc h p it hc =>
      rw [distLoop.eq_def, dif_neg hc]
      exact hh

lemma set_preserves_bounds (rows : List RowTextData) (alloc : List ℕ) (rowIndex : ℕ)
    (hb : AllocBounds rows alloc)
    (hlt : alloc.getD rowIndex 0 < (rows.getD rowIndex dRow).maxNaturalLines) :
    AllocBounds rows (alloc.set rowIndex (alloc.getD rowIndex 0 + 1)) := by
  obtain ⟨hlen, hbd⟩ := hb
  refine ⟨by simpa using hlen, fun i hi => ?_⟩
  rw [getD_set_eval]
  by_cases hij : rowIndex = i ∧ rowIndex < alloc.length
  · rw [if_pos hij]
    obtain ⟨rfl, _⟩ := hij
    exact ⟨le_trans (hbd rowIndex hi).1 (Nat.le_succ _),
      le_trans (Nat.succ_le_of_lt hlt) (le_max_left _ _)⟩
  · rw [if_neg hij]
    exact hbd i hi

lemma row_index_lt_of_not_skip (rows : List RowTextData) (alloc : List ℕ) (rowIndex : ℕ)
    (hskip : ¬(rows.getD rowIndex dRow).maxNaturalLines ≤ alloc.getD rowIndex 0) :
    rowIndex < rows.length := by
  by_contra hge
  push_neg at hge
  rw [List.getD_eq_default _ _ hge] at hskip
  exact hskip (Nat.zero_le _)

lemma distLoop_bounds (rows : List RowTextData) (b : ℚ) (prios : List (ℕ × ℤ))
    (alloc : List ℕ) (h : ℚ) (p it : ℕ)
    (hb : AllocBounds rows alloc) :
    AllocBounds rows (distLoop rows b prios alloc h p it).alloc := by
  induction alloc, h, p, it using distLoop.induct rows b prios with
  | case1 alloc h p it hc rowIndex row hskip ih =>
      rw [distLoop.eq_def, dif_pos hc, if_pos hskip]
      exact ih hb
  | case2 alloc h p it hc rowIndex row hskip testAlloc testHeight htest hmax hwrap hneedy ih =>
      rw [distLoop.eq_def, dif_pos hc, if_neg hskip, if_pos htest, if_pos hmax, if_pos hwrap,
        if_pos hneedy]
      exact ih (set_preserves_bounds rows alloc rowIndex hb (not_le.mp hskip))
  | case3 alloc h p it hc rowIndex row hskip testAlloc testHeight htest hmax hwrap hneedy =>
      rw [distLoop.eq_def, dif_pos hc, if_neg hskip, if_pos htest, if_pos hmax, if_pos hwrap,
        if_neg hneedy]
      exact set_preserves_bounds rows alloc rowIndex hb (not_le.mp hskip)
  | case4 alloc h p it hc rowIndex row hskip testAlloc testHeight htest hmax hwrap ih =>
      rw [distLoop.eq_def, dif_pos hc, if_neg hskip, if_pos htest, if_pos hmax, if_neg hwrap]
      exact ih (set_preserves_bounds rows alloc rowIndex hb (not_le.mp hskip))
  | case5 alloc h p it hc rowIndex row hskip testAlloc testHeight htest hmax hwrap hneedy ih =>
      rw [distLoop.eq_def, dif_pos hc, if_neg hskip, if_pos htest, if_neg hmax, if_pos hwrap,
        if_pos hneedy]
      exact ih (set_preserves_bounds rows alloc rowIndex hb (not_le.mp hskip))
  | case6 alloc h p it hc rowIndex row hskip testAlloc testHeight htest hmax hwrap hneedy =>
      rw [distLoop.eq_def, dif_pos hc, if_neg hskip, if_pos htest, if_neg hmax, if_pos hwrap,
        if_neg hneedy]
      exact set_preserves_bounds rows alloc rowIndex hb (not_le.mp hskip)
  | case7 alloc h p it hc rowIndex row hskip testAlloc testHeight htest hmax hwrap ih =>
      rw [distLoop.eq_def, dif_pos hc, if_neg hskip, if_pos htest, if_neg hmax, if_neg hwrap]
      exact ih (set_preserves_bounds rows alloc rowIndex hb (not_le.mp hskip))
  | case8 alloc h p it hc rowIndex row hskip testAlloc testHeight htest hwrap hneedy ih =>
      rw [distLoop.eq_def, dif_pos hc, if_neg hskip, if_neg htest, if_pos hwrap, if_pos hneedy]
      exact ih hb
  | case9 alloc h p it hc rowIndex row hskip testAlloc testHeight htest hwrap hneedy =>
      rw [distLoop.eq_def, dif_pos hc, if_neg hskip, if_neg htest, if_pos hwrap, if_neg hneedy]
      exact hb
  | case10 alloc h p it hc rowIndex row hskip testAlloc testHeight htest hwrap ih =>
      rw [distLoop.eq_def, dif_pos hc, if_neg hskip, if_neg htest, if_neg hwrap]
      exact ih hb
  | case11 alloc h p it hc =>
      rw [distLoop.eq_def, dif_neg hc]
      exact hb

lemma hasNeedy_false_forall (rows : List RowTextData) (prios : List (ℕ × ℤ))
    (alloc : List ℕ) (hn : ¬hasNeedy rows prios alloc = true) :
    ∀ q ∈ prios, (rows.getD q.1 dRow).maxNaturalLines ≤ alloc.getD q.1 0 := by
  intro q hq
  simp only [hasNeedy, List.any_eq_true, decide_eq_true_eq, not_exists, not_and,
    not_lt] at hn
  exact hn q hq

lemma distLoop_exit (rows : List RowTextData) (b : ℚ) (prios : List (ℕ × ℤ))
    (alloc : List ℕ) (h : ℚ) (p it : ℕ) :
    b ≤ (distLoop rows b prios alloc h p it).height ∨
    prios.length ≤ (distLoop rows b prios alloc h p it).pIdx ∨
    maxIterations ≤ (distLoop rows b prios alloc h p it).iters ∨
    ∀ q ∈ prios, (rows.getD q.1 dRow).maxNaturalLines
      ≤ (distLoop rows b prios alloc h p it).alloc.getD q.1 0 := by
  induction alloc, h, p, it using distLoop.induct rows b prios with
  | case1 alloc h p it hc rowIndex row hskip ih =>
      rw [distLoop.eq_def, dif_pos hc, if_pos hskip]
      exact ih
  | case2 alloc h p it hc rowIndex row hskip testAlloc testHeight htest hmax hwrap hneedy ih =>
      rw [distLoop.eq_def, dif_pos hc, if_neg hskip, if_pos htest, if_pos hmax, if_pos hwrap,
        if_pos hneedy]
      exact ih
  | case3 alloc h p it hc rowIndex row hskip testAlloc testHeight htest hmax hwrap hneedy =>
      rw [distLoop.eq_def, dif_pos hc, if_neg hskip, if_pos htest, if_pos hmax, if_pos hwrap,
        if_neg hneedy]
      exact Or.inr (Or.inr (Or.inr (hasNeedy_false_forall rows prios _ hneedy)))
  | case4 alloc h p it hc rowIndex row hskip testAlloc testHeight htest hmax hwrap ih =>
      rw [distLoop.eq_def, dif_pos hc, if_neg hskip, if_pos htest, if_pos hmax, if_neg hwrap]
      exact ih
  | case5 alloc h p it hc rowIndex row hskip testAlloc testHeight htest hmax hwrap hneedy ih =>
      rw [distLoop.eq_def, dif_pos hc, if_neg hskip, if_pos htest, if_neg hmax, if_pos hwrap,
        if_pos hneedy]
      exact ih
  | case6 alloc h p it hc rowIndex row hskip testAlloc testHeight htest hmax hwrap hneedy =>
      rw [distLoop.eq_def, dif_pos hc, if_neg hskip, if_pos htest, if_neg hmax, if_pos hwrap,
        if_neg hneedy]
      exact Or.inr (Or.inr (Or.inr (hasNeedy_false_forall rows prios _ hneedy)))
  | case7 alloc h p it hc rowIndex row hskip testAlloc testHeight htest hmax hwrap ih =>
      rw [distLoop.eq_def, dif_pos hc, if_neg hskip, if_pos htest, if_neg hmax, if_neg hwrap]
      exact ih
  | case8 alloc h p it hc rowIndex row hskip testAlloc testHeight htest hwrap hneedy ih =>
      rw [distLoop.eq_def, dif_pos hc, if_neg hskip, if_neg htest, if_pos hwrap, if_pos hneedy]
      exact ih
  | case9 alloc h p it hc rowIndex row hskip testAlloc testHeight htest hwrap hneedy =>
      rw [distLoop.eq_def, dif_pos hc, if_neg hskip, if_neg htest, if_pos hwrap, if_neg hneedy]
      exact Or.inr (Or.inr (Or.inr (hasNeedy_false_forall rows prios _ hneedy)))
  | case10 alloc h p it hc rowIndex row hskip testAlloc testHeight htest hwrap ih =>
      rw [distLoop.eq_def, dif_pos hc, if_neg hskip, if_neg htest, if_neg hwrap]
      exact ih
  | case11 alloc h p it hc =>
      rw [distLoop.eq_def, dif_neg hc]
      rcases not_and_or.mp hc with h1 | h23
      · exact Or.inl (not_lt.mp h1)
      · rcases not_and_or.mp h23 with h2 | h3
        · exact Or.inr (Or.inl (not_lt.mp h2))
        · exact Or.inr (Or.inr (Or.inl (not_lt.mp h3)))

/-- Both phases of the allocator keep every row between its floor and
`max maxNaturalLines minLines`. -/
lemma calc_bounds (rows : List RowTextData) (b : ℚ) :
    AllocBounds rows (calculateOptimalLineDistribution rows b) := by
  rw [calc_eq]
  split_ifs with hif
  · refine ⟨by simp, fun i hi => ?_⟩
    rw [getD_map_lt _ _ _ hi]
    exact ⟨le_max_right _ _, le_refl _⟩
  · refine distLoop_bounds rows b (rowPriorities rows) _ _ 0 0 ⟨by simp, fun i hi => ?_⟩
    rw [getD_map_lt _ _ _ hi]
    exact ⟨le_refl _, le_max_right _ _⟩

/-! ## Claims -/

/-- C1: for every rows list and budget, if the all-minimum allocation fits
the budget, then the allocation returned by
`calculateOptimalLineDistribution` also fits the budget (total height, given
by `getCurrentHeight`, at most the budget). -/
theorem budget_invariant (rows : List RowTextData) (b : ℚ)
    (hmin : getCurrentHeight rows (rows.map (fun r => r.minLines)) ≤ b) :
    getCurrentHeight rows (calculateOptimalLineDistribution rows b) ≤ b := by
  rw [calc_eq]
  split_ifs with hif
  · exact hif
  · exact distLoop_height_le rows b (rowPriorities rows) _ _ 0 0 hmin

/-- C1 witness: a one-row input whose all-minimum allocation fits budget 740,
at which the returned allocation indeed fits the budget. -/
theorem budget_invariant_witness :
    getCurrentHeight [⟨[⟨3, 20, 16⟩, ⟨5, 20, 16⟩], 5, 8⟩]
      (([⟨[⟨3, 20, 16⟩, ⟨5, 20, 16⟩], 5, 8⟩] : List RowTextData).map
        (fun r => r.minLines)) ≤ 740 ∧
    getCurrentHeight [⟨[⟨3, 20, 16⟩, ⟨5, 20, 16⟩], 5, 8⟩]
      (calculateOptimalLineDistribution [⟨[⟨3, 20, 16⟩, ⟨5, 20, 16⟩], 5, 8⟩] 740) ≤ 740 :=
  ⟨by norm_num [getCurrentHeight, rowAvgLineHeight, rowAvgPadding, dRow,
      List.enum, List.enumFrom, List.foldl],
   budget_invariant [⟨[⟨3, 20, 16⟩, ⟨5, 20, 16⟩], 5, 8⟩] 740
    (by norm_num [getCurrentHeight, rowAvgLineHeight, rowAvgPadding, dRow,
      List.enum, List.enumFrom, List.foldl])⟩

/-- C2: whenever the ideal allocation
`max maxNaturalLines minLines` (per row) has total height within the budget,
the allocator returns exactly that ideal allocation. -/
theorem ideal_shortcut (rows : List RowTextData) (b : ℚ)
    (hideal : getCurrentHeight rows
      (rows.map (fun r => max r.maxNaturalLines r.minLines)) ≤ b) :
    calculateOptimalLineDistribution rows b
      = rows.map (fun r => max r.maxNaturalLines r.minLines) := by
  rw [calc_eq, if_pos hideal]

/-- C2 witness: a one-row input whose ideal allocation `[8]` fits budget 740
and is returned exactly. -/
theorem ideal_shortcut_witness :
    getCurrentHeight [⟨[⟨3, 20, 16⟩, ⟨5, 20, 16⟩], 5, 8⟩]
      (([⟨[⟨3, 20, 16⟩, ⟨5, 20, 16⟩], 5, 8⟩] : List RowTextData).map
        (fun r => max r.maxNaturalLines r.minLines)) ≤ 740 ∧
    calculateOptimalLineDistribution [⟨[⟨3, 20, 16⟩, ⟨5, 20, 16⟩], 5, 8⟩] 740
      = ([⟨[⟨3, 20, 16⟩, ⟨5, 20, 16⟩], 5, 8⟩] : List RowTextData).map
        (fun r => max r.maxNaturalLines r.minLines) :=
  ⟨by norm_num [getCurrentHeight, rowAvgLineHeight, rowAvgPadding, dRow,
      List.enum, List.enumFrom, List.foldl],
   ideal_shortcut [⟨[⟨3, 20, 16⟩, ⟨5, 20, 16⟩], 5, 8⟩] 740
    (by norm_num [getCurrentHeight, rowAvgLineHeight, rowAvgPadding, dRow,
      List.enum, List.enumFrom, List.foldl])⟩

/-- C3: for every rows list, budget and row position, the returned
allocation is at least the row's floor `minLines`. -/
theorem floor_invariant (rows : List RowTextData) (b : ℚ) (i : ℕ)
    (hi : i < rows.length) :
    (rows.getD i dRow).minLines
      ≤ (calculateOptimalLineDistribution rows b).getD i 0 :=
  ((calc_bounds rows b).2 i hi).1

/-- C3 witness: at a concrete one-row input the returned allocation honours
the floor of 8 lines. -/
theorem floor_invariant_witness :
    0 < ([⟨[⟨3, 20, 16⟩], 3, 8⟩] : List RowTextData).length ∧
    (([⟨[⟨3, 20, 16⟩], 3, 8⟩] : List RowTextData).getD 0 dRow).minLines
      ≤ (calculateOptimalLineDistribution [⟨[⟨3, 20, 16⟩], 3, 8⟩] 740).getD 0 0 :=
  ⟨by decide, floor_invariant [⟨[⟨3, 20, 16⟩], 3, 8⟩] 740 0 (by decide)⟩

/-- C10: unconditional ceiling of the allocator: every returned entry is at
most `max maxNaturalLines minLines` of its row, for every input and
budget. -/
theorem unconditional_ceiling (rows : List RowTextData) (b : ℚ) (i : ℕ)
    (hi : i < rows.length) :
    (calculateOptimalLineDistribution rows b).getD i 0
      ≤ max (rows.getD i dRow).maxNaturalLines (rows.getD i dRow).minLines :=
  ((calc_bounds rows b).2 i hi).2

/-- C10 witness: at a concrete one-row input with floor 8 above the natural
count 3, the returned entry is at most `max 3 8`. -/
theorem unconditional_ceiling_witness :
    0 < ([⟨[⟨3, 20, 16⟩], 3, 8⟩] : List RowTextData).length ∧
    (calculateOptimalLineDistribution [⟨[⟨3, 20, 16⟩], 3, 8⟩] 500).getD 0 0
      ≤ max (([⟨[⟨3, 20, 16⟩], 3, 8⟩] : List RowTextData).getD 0 dRow).maxNaturalLines
        (([⟨[⟨3, 20, 16⟩], 3, 8⟩] : List RowTextData).getD 0 dRow).minLines :=
  ⟨by decide, unconditional_ceiling [⟨[⟨3, 20, 16⟩], 3, 8⟩] 500 0 (by decide)⟩

/-- C4 counterexample: the ceiling `allocation i ≤ maxNaturalLines i` fails
as stated, without a precondition: a row whose floor (8) exceeds its natural
line count (1) is allocated its floor by the ideal phase, and 8 > 1. -/
theorem ceiling_claim_counterexample :
    ¬ (∀ (rows : List RowTextData) (b : ℚ) (i : ℕ), i < rows.length →
        (calculateOptimalLineDistribution rows b).getD i 0
          ≤ (rows.getD i dRow).maxNaturalLines) := by
  intro hclaim
  have h := hclaim [⟨[⟨1, 20, 10⟩], 1, 8⟩] 740 0 (by decide)
  have he : calculateOptimalLineDistribution [⟨[⟨1, 20, 10⟩], 1, 8⟩] 740 = [8] := by
    norm_num [calculateOptimalLineDistribution, getCurrentHeight, rowAvgLineHeight,
      rowAvgPadding, dRow, List.enum, List.enumFrom, List.foldl]
  rw [he] at h
  exact absurd h (by decide)

/-- C4 amended: the ceiling `allocation i ≤ maxNaturalLines i` holds for
every row whose floor does not exceed its natural line count
(`minLines i ≤ maxNaturalLines i`); without that precondition only
`allocation i ≤ max maxNaturalLines minLines` holds. -/
theorem ceiling_of_floor_le (rows : List RowTextData) (b : ℚ) (i : ℕ)
    (hi : i < rows.length)
    (hfloor : (rows.getD i dRow).minLines ≤ (rows.getD i dRow).maxNaturalLines) :
    (calculateOptimalLineDistribution rows b).getD i 0
      ≤ (rows.getD i dRow).maxNaturalLines := by
  have h := ((calc_bounds rows b).2 i hi).2
  rwa [max_eq_left hfloor] at h

/-- C4 witness: a row with floor 8 below its natural count 10 stays within
the natural count at budget 300. -/
theorem ceiling_of_floor_le_witness :
    0 < ([⟨[⟨10, 20, 16⟩], 10, 8⟩] : List RowTextData).length ∧
    (([⟨[⟨10, 20, 16⟩], 10, 8⟩] : List RowTextData).getD 0 dRow).minLines
      ≤ (([⟨[⟨10, 20, 16⟩], 10, 8⟩] : List RowTextData).getD 0 dRow).maxNaturalLines ∧
    (calculateOptimalLineDistribution [⟨[⟨10, 20, 16⟩], 10, 8⟩] 300).getD 0 0
      ≤ (([⟨[⟨10, 20, 16⟩], 10, 8⟩] : List RowTextData).getD 0 dRow).maxNaturalLines :=
  ⟨by decide, by decide,
   ceiling_of_floor_le [⟨[⟨10, 20, 16⟩], 10, 8⟩] 300 0 (by decide) (by decide)⟩

/-- C5: when even the all-minimum allocation exceeds the budget (for rows
with nonnegative average line height, as guaranteed by the measured data
model's positive line heights), the allocator returns the all-minimum
allocation; no error is possible. -/
theorem infeasible_returns_minimum (rows : List RowTextData) (b : ℚ)
    (hpos : ∀ i, 0 ≤ rowAvgLineHeight (rows.getD i dRow))
    (hover : b < getCurrentHeight rows (rows.map (fun r => r.minLines))) :
    calculateOptimalLineDistribution rows b = rows.map (fun r => r.minLines) := by
  rw [calc_eq]
  have hmono := getCurrentHeight_mono rows hpos (forall₂_min_le_ideal rows)
  rw [if_neg (not_le.mpr (lt_of_lt_of_le hover hmono))]
  have hstop : ¬(getCurrentHeight rows (rows.map (fun r => r.minLines)) < b ∧
      (0 : ℕ) < (rowPriorities rows).length ∧ (0 : ℕ) < maxIterations) :=
    fun hcon => absurd hcon.1 (not_lt.mpr (le_of_lt hover))
  rw [distLoop.eq_def, dif_neg hstop]

/-- C5 witness: with budget 0 and a row of floor 8 (minimum height 170 > 0)
the allocator returns the all-minimum allocation `[8]`. -/
theorem infeasible_returns_minimum_witness :
    (∀ i, 0 ≤ rowAvgLineHeight (([⟨[⟨1, 20, 10⟩], 1, 8⟩] : List RowTextData).getD i dRow)) ∧
    (0 : ℚ) < getCurrentHeight [⟨[⟨1, 20, 10⟩], 1, 8⟩]
      (([⟨[⟨1, 20, 10⟩], 1, 8⟩] : List RowTextData).map (fun r => r.minLines)) ∧
    calculateOptimalLineDistribution [⟨[⟨1, 20, 10⟩], 1, 8⟩] 0
      = ([⟨[⟨1, 20, 10⟩], 1, 8⟩] : List RowTextData).map (fun r => r.minLines) := by
  have hpos : ∀ i, 0 ≤ rowAvgLineHeight
      (([⟨[⟨1, 20, 10⟩], 1, 8⟩] : List RowTextData).getD i dRow) := by
    intro i
    match i with
    | 0 => norm_num [rowAvgLineHeight, List.foldl]
    | n + 1 => norm_num [rowAvgLineHeight, dRow, List.foldl, List.getD_cons_succ]
  have hover : (0 : ℚ) < getCurrentHeight [⟨[⟨1, 20, 10⟩], 1, 8⟩]
      (([⟨[⟨1, 20, 10⟩], 1, 8⟩] : List RowTextData).map (fun r => r.minLines)) := by
    norm_num [getCurrentHeight, rowAvgLineHeight, rowAvgPadding, dRow,
      List.enum, List.enumFrom, List.foldl]
  exact ⟨hpos, hover,
    infeasible_returns_minimum [⟨[⟨1, 20, 10⟩], 1, 8⟩] 0 hpos hover⟩

/-- C8: the row floor computed by the measurement aggregation equals the
spec formula `max(1, ceil((160 - avgFixedOverhead) / avgLineUnitHeight))`
with arithmetic means over the cells, and is always at least 1. -/
theorem min_line_count_formula (cellData : List CellTextData) :
    (mkRowTextData cellData).minLines = specMinLineCount cellData ∧
    1 ≤ (mkRowTextData cellData).minLines := by
  constructor
  · simp only [mkRowTextData, specMinLineCount, foldl_add_eq, zero_add]
  · exact le_max_left 1 _

/-- C9: every cell clamp config produced from an allocation clamps some cell
of its row to `min (allocation row) naturalLines`, with pixel height
`clampLines * lineHeight`; in particular no cell is told to show more lines
than its natural count. -/
theorem cell_clamp_form (rows : List RowTextData) (alloc : List ℕ)
    (cfg : CellConfig) (hc : cfg ∈ cellConfigs rows alloc) :
    ∃ i cell, i < rows.length ∧ cell ∈ (rows.getD i dRow).cells ∧
      cfg.lineClamp = min (alloc.getD i 0) cell.naturalLines ∧
      cfg.maxHeight = (cfg.lineClamp : ℚ) * cell.lineHeight ∧
      cfg.lineClamp ≤ cell.naturalLines := by
  unfold cellConfigs at hc
  rw [List.mem_flatten] at hc
  obtain ⟨l, hl, hcl⟩ := hc
  rw [List.mem_map] at hl
  obtain ⟨rp, hrp, rfl⟩ := hl
  rw [List.mem_map] at hcl
  obtain ⟨cell, hcell, rfl⟩ := hcl
  rw [List.mem_enum_iff_getElem?] at hrp
  have hlt : rp.1 < rows.length := (List.getElem?_eq_some.mp hrp).1
  have hgd : rows.getD rp.1 dRow = rp.2 := by
    rw [List.getD_eq_getElem?_getD, hrp, Option.getD_some]
  exact ⟨rp.1, cell, hlt, by rw [hgd]; exact hcell, rfl, rfl, min_le_right _ _⟩

/-- C9 witness: a one-row grid with allocation `[8]` produces the config
clamping the 3-line cell to 3 lines and 60 height units. -/
theorem cell_clamp_form_witness :
    (⟨3, 60⟩ : CellConfig) ∈ cellConfigs [⟨[⟨3, 20, 16⟩], 3, 8⟩] [8] ∧
    ∃ i cell, i < ([⟨[⟨3, 20, 16⟩], 3, 8⟩] : List RowTextData).length ∧
      cell ∈ (([⟨[⟨3, 20, 16⟩], 3, 8⟩] : List RowTextData).getD i dRow).cells ∧
      (⟨3, 60⟩ : CellConfig).lineClamp = min (([8] : List ℕ).getD i 0) cell.naturalLines ∧
      (⟨3, 60⟩ : CellConfig).maxHeight
        = ((⟨3, 60⟩ : CellConfig).lineClamp : ℚ) * cell.lineHeight ∧
      (⟨3, 60⟩ : CellConfig).lineClamp ≤ cell.naturalLines := by
  have hmem : (⟨3, 60⟩ : CellConfig) ∈ cellConfigs [⟨[⟨3, 20, 16⟩], 3, 8⟩] [8] := by
    norm_num [cellConfigs, List.enum, List.enumFrom]
  exact ⟨hmem, cell_clamp_form [⟨[⟨3, 20, 16⟩], 3, 8⟩] [8] ⟨3, 60⟩ hmem⟩

lemma mono_prios : rowPriorities rowsMono = [(0, 19), (1, 5)] := by
  norm_num [rowPriorities, rowsMono, sortByPriority, insertByPriority, dRow, List.range_succ]

lemma mono_init_height : getCurrentHeight rowsMono [1, 1] = 360 := by
  norm_num [getCurrentHeight, rowsMono, rowAvgLineHeight, rowAvgPadding, dRow,
    List.enum, List.enumFrom, List.foldl]

set_option maxHeartbeats 1000000 in
lemma mono_run500 : distLoop rowsMono 500 [(0, 19), (1, 5)] [1, 1] 360 0 0
    = ⟨[1, 6], 410, 2, 7⟩ := by
  iterate 9
    conv_lhs => rw [distLoop.eq_def]
    simp only [rowsMono, dRow, hasNeedy, maxIterations, List.getD_cons_zero,
      List.getD_cons_succ, List.length_cons, List.length_nil]
    norm_num [getCurrentHeight, rowAvgLineHeight, rowAvgPadding, dRow, rowsMono,
      List.enum, List.enumFrom, List.foldl, List.set]

set_option maxHeartbeats 1000000 in
lemma mono_run560 : distLoop rowsMono 560 [(0, 19), (1, 5)] [1, 1] 360 0 0
    = ⟨[2, 1], 560, 0, 1⟩ := by
  iterate 2
    conv_lhs => rw [distLoop.eq_def]
    simp only [rowsMono, dRow, hasNeedy, maxIterations, List.getD_cons_zero,
      List.getD_cons_succ, List.length_cons, List.length_nil]
    norm_num [getCurrentHeight, rowAvgLineHeight, rowAvgPadding, dRow, rowsMono,
      List.enum, List.enumFrom, List.foldl, List.set]

lemma mono_min_alloc : rowsMono.map (fun r => r.minLines) = [1, 1] := by
  norm_num [rowsMono]

lemma mono_ideal_over500 :
    ¬ getCurrentHeight rowsMono
      (rowsMono.map (fun r => max r.maxNaturalLines r.minLines)) ≤ 500 := by
  norm_num [getCurrentHeight, rowsMono, rowAvgLineHeight, rowAvgPadding, dRow,
    List.enum, List.enumFrom, List.foldl]

lemma mono_ideal_over560 :
    ¬ getCurrentHeight rowsMono
      (rowsMono.map (fun r => max r.maxNaturalLines r.minLines)) ≤ 560 := by
  norm_num [getCurrentHeight, rowsMono, rowAvgLineHeight, rowAvgPadding, dRow,
    List.enum, List.enumFrom, List.foldl]

lemma mono_calc500 : calculateOptimalLineDistribution rowsMono 500 = [1, 6] := by
  rw [calc_eq, if_neg mono_ideal_over500, mono_min_alloc, mono_prios,
    mono_init_height, mono_run500]

lemma mono_calc560 : calculateOptimalLineDistribution rowsMono 560 = [2, 1] := by
  rw [calc_eq, if_neg mono_ideal_over560, mono_min_alloc, mono_prios,
    mono_init_height, mono_run560]

/-- C6 counterexample: monotonicity in the budget fails.  On `rowsMono`, the
budget pair 500 ≤ 560 allocates row 1 six lines at budget 500 but only one
line at budget 560: at 560 the expensive first row's grant fits and exhausts
the budget, while at 500 it never fits and the cheap second row absorbs five
grants. -/
theorem monotonicity_counterexample :
    ¬ (∀ (rows : List RowTextData) (b1 b2 : ℚ) (i : ℕ), b1 ≤ b2 →
        i < rows.length →
        (calculateOptimalLineDistribution rows b1).getD i 0
          ≤ (calculateOptimalLineDistribution rows b2).getD i 0) := by
  intro hclaim
  have h := hclaim rowsMono 500 560 1 (by norm_num) (by norm_num [rowsMono])
  rw [mono_calc500, mono_calc560] at h
  exact absurd h (by decide)

/-- C6 amended: raising the budget never lowers an allocation entry provided
the larger budget already admits the ideal allocation; without that proviso
a larger budget can strictly lower entries (see the counterexample). -/
theorem monotone_under_ideal_fit (rows : List RowTextData) (b1 b2 : ℚ) (i : ℕ)
    (_h12 : b1 ≤ b2) (hi : i < rows.length)
    (hideal : getCurrentHeight rows
      (rows.map (fun r => max r.maxNaturalLines r.minLines)) ≤ b2) :
    (calculateOptimalLineDistribution rows b1).getD i 0
      ≤ (calculateOptimalLineDistribution rows b2).getD i 0 := by
  rw [calc_eq rows b2, if_pos hideal, getD_map_lt _ _ _ hi]
  exact ((calc_bounds rows b1).2 i hi).2

/-- C6 amended witness: at a one-row input whose ideal allocation fits the
larger budget 740, the allocation at budget 200 is entrywise at most the one
at budget 740. -/
theorem monotone_under_ideal_fit_witness :
    (200 : ℚ) ≤ 740 ∧
    0 < ([⟨[⟨3, 20, 16⟩], 3, 8⟩] : List RowTextData).length ∧
    getCurrentHeight [⟨[⟨3, 20, 16⟩], 3, 8⟩]
      (([⟨[⟨3, 20, 16⟩], 3, 8⟩] : List RowTextData).map
        (fun r => max r.maxNaturalLines r.minLines)) ≤ 740 ∧
    (calculateOptimalLineDistribution [⟨[⟨3, 20, 16⟩], 3, 8⟩] 200).getD 0 0
      ≤ (calculateOptimalLineDistribution [⟨[⟨3, 20, 16⟩], 3, 8⟩] 740).getD 0 0 := by
  have hideal : getCurrentHeight [⟨[⟨3, 20, 16⟩], 3, 8⟩]
      (([⟨[⟨3, 20, 16⟩], 3, 8⟩] : List RowTextData).map
        (fun r => max r.maxNaturalLines r.minLines)) ≤ 740 := by
    norm_num [getCurrentHeight, rowAvgLineHeight, rowAvgPadding, dRow,
      List.enum, List.enumFrom, List.foldl]
  exact ⟨by norm_num, by decide, hideal,
    monotone_under_ideal_fit [⟨[⟨3, 20, 16⟩], 3, 8⟩] 200 740 0 (by norm_num)
      (by decide) hideal⟩

lemma wrap_prios : rowPriorities rowsWrap = [(0, 10), (1, 2)] := by
  norm_num [rowPriorities, rowsWrap, sortByPriority, insertByPriority, dRow, List.range_succ]

lemma wrap_min_alloc : rowsWrap.map (fun r => r.minLines) = [1, 2] := by
  norm_num [rowsWrap]

lemma wrap_init_height : getCurrentHeight rowsWrap [1, 2] = 660 := by
  norm_num [getCurrentHeight, rowsWrap, rowAvgLineHeight, rowAvgPadding, dRow,
    List.enum, List.enumFrom, List.foldl]

set_option maxHeartbeats 1000000 in
lemma wrap_run : distLoop rowsWrap 900 [(0, 10), (1, 2)] [1, 2] 660 0 0
    = ⟨[1, 4], 820, 2, 4⟩ := by
  iterate 6
    conv_lhs => rw [distLoop.eq_def]
    simp only [rowsWrap, dRow, hasNeedy, maxIterations, List.getD_cons_zero,
      List.getD_cons_succ, List.length_cons, List.length_nil]
    norm_num [getCurrentHeight, rowAvgLineHeight, rowAvgPadding, dRow, rowsWrap,
      List.enum, List.enumFrom, List.foldl, List.set]

/-- C7 counterexample: on `rowsWrap` with budget 900 the phase-2 loop (run
exactly as the allocator runs it) terminates with the pointer past the end
of the priority order while the first prioritized row is still below its
natural maximum, with the iteration count below the cap and the height below
the budget: the skip branch advanced the pointer past the end without the
wrap-around check. -/
theorem wrap_claim_counterexample :
    (distLoop rowsWrap 900 (rowPriorities rowsWrap)
        (rowsWrap.map (fun r => r.minLines))
        (getCurrentHeight rowsWrap (rowsWrap.map (fun r => r.minLines))) 0 0).pIdx
      = (rowPriorities rowsWrap).length ∧
    (distLoop rowsWrap 900 (rowPriorities rowsWrap)
        (rowsWrap.map (fun r => r.minLines))
        (getCurrentHeight rowsWrap (rowsWrap.map (fun r => r.minLines))) 0 0).iters
      < maxIterations ∧
    (distLoop rowsWrap 900 (rowPriorities rowsWrap)
        (rowsWrap.map (fun r => r.minLines))
        (getCurrentHeight rowsWrap (rowsWrap.map (fun r => r.minLines))) 0 0).height
      < 900 ∧
    ∃ q ∈ rowPriorities rowsWrap,
      (distLoop rowsWrap 900 (rowPriorities rowsWrap)
          (rowsWrap.map (fun r => r.minLines))
          (getCurrentHeight rowsWrap (rowsWrap.map (fun r => r.minLines))) 0 0).alloc.getD q.1 0
        < (rowsWrap.getD q.1 dRow).maxNaturalLines := by
  rw [wrap_min_alloc, wrap_init_height, wrap_prios, wrap_run]
  refine ⟨rfl, by norm_num [maxIterations], by norm_num, (0, 10), by norm_num,
    by norm_num [rowsWrap]⟩

/-- C7 amended: the phase-2 loop ends only in one of these states: the
accumulated height has reached the budget, or the pointer is past the end of
the priority order (which the skip branch can reach with rows still below
their natural maxima, since it bypasses the wrap-around check), or the
iteration cap is reached, or every prioritized row sits at or above its
natural maximum (the no-needy-rows break, which resets the pointer to the
start before terminating). -/
theorem loop_exit_conditions (rows : List RowTextData) (b : ℚ)
    (prios : List (ℕ × ℤ)) (alloc : List ℕ) (h : ℚ) (p it : ℕ) :
    b ≤ (distLoop rows b prios alloc h p it).height ∨
    prios.length ≤ (distLoop rows b prios alloc h p it).pIdx ∨
    maxIterations ≤ (distLoop rows b prios alloc h p it).iters ∨
    ∀ q ∈ prios, (rows.getD q.1 dRow).maxNaturalLines
      ≤ (distLoop rows b prios alloc h p it).alloc.getD q.1 0 :=
  distLoop_exit rows b prios alloc h p it

end GridClamp
